import Mathlib

/-!
Shallow embedding of the IMScraperWeb background worker
(`background_worker.py`) and the cancellation endpoint of the Flask front
end (`app.py`), together with theorems checking the natural-language
specification against it.

Conventions of the embedding:
* Python strings are Lean `String`s manipulated through their `List Char`;
  `str.lower()` is modelled on its ASCII fragment (URLs and the constants
  involved are ASCII), `str.strip()` strips the ASCII whitespace class.
* Machine clock readings and durations are `ℚ`.
* A Python value that may be an HTTP status integer or a sentinel string
  is a `JVal`; JSON payloads are `JVal` trees.
* A network call is an abstract outcome (`Fetch`): either a raised
  exception, or a response carrying an HTTP status and either a parsed
  JSON body or a body whose parsing raises.
* Fallible Python code is `Except Unit`; a `try/except` block is a
  `match` sending `.error` to the handler's value.
* The cooperative event loop runs exactly one `await` chain at a time, so
  the sequence of `await`s in a coroutine is modelled by sequential
  composition; the time spent in each awaited network operation is an
  explicit duration parameter.
-/

namespace IMScraper

/-! ### ASCII character helpers (Python `str.lower` / `str.strip`) -/

/-- Python whitespace class used by `str.strip()` (ASCII fragment):
space, tab, newline, carriage return, vertical tab, form feed. -/
def isPySpace (c : Char) : Bool :=
  c.toNat = 32 || c.toNat = 9 || c.toNat = 10 || c.toNat = 13 ||
    c.toNat = 11 || c.toNat = 12

/-- Python `str.lower()` on one character, ASCII fragment: map A-Z to a-z. -/
def pyLowerChar (c : Char) : Char :=
  if 65 ≤ c.toNat ∧ c.toNat ≤ 90 then Char.ofNat (c.toNat + 32) else c

/-- Python `str.lower()` (ASCII fragment). -/
def pyLower (cs : List Char) : List Char := cs.map pyLowerChar

/-- Python `str.strip()`, left half: drop leading whitespace. -/
def pyStripL (cs : List Char) : List Char := cs.dropWhile isPySpace

/-- Python `str.strip()`, right half: drop trailing whitespace. -/
def pyStripR (cs : List Char) : List Char :=
  (cs.reverse.dropWhile isPySpace).reverse

/-- Python `str.strip()`. -/
def pyStrip (cs : List Char) : List Char := pyStripR (pyStripL cs)

/-- Python `s.split(sep)[0]`: the prefix of the string before the first
occurrence of the separator character. -/
def takeUntil (sep : Char) (cs : List Char) : List Char :=
  cs.takeWhile (fun c => c != sep)

/-! ### URL normalization (`normalize_url`, background_worker.py lines 69-79) -/

/-- The characters of the literal scheme string used by `normalize_url`. -/
def httpScheme : List Char := ('h' :: 't' :: 't' :: 'p' :: ':' :: '/' :: '/' :: [])

/-- The characters of the secure scheme literal. -/
def httpsScheme : List Char := ('h' :: 't' :: 't' :: 'p' :: 's' :: ':' :: '/' :: '/' :: [])

/-- Python `url.startswith(('http://', 'https://'))`. -/
def hasScheme (cs : List Char) : Bool :=
  cs.take 7 == httpScheme || cs.take 8 == httpsScheme

/-- The first statement of `normalize_url`: prepend `http://` when the
input carries no scheme. -/
def withScheme (cs : List Char) : List Char :=
  if hasScheme cs then cs else httpScheme ++ cs

/-- Python `re.sub(r'^(http://|https://)', '', s)`: remove one leading
scheme occurrence, if any. -/
def stripScheme (cs : List Char) : List Char :=
  if cs.take 7 == httpScheme then cs.drop 7
  else if cs.take 8 == httpsScheme then cs.drop 8
  else cs

/-- The domain part computed by `normalize_url`: strip the scheme from the
stripped, lower-cased URL, then cut at the first `/`, `?` and `#`. -/
def normDomain (cs : List Char) : List Char :=
  takeUntil '#' (takeUntil '?' (takeUntil '/'
    (stripScheme (pyLower (pyStrip (withScheme cs))))))

/-- `normalize_url` (background_worker.py lines 69-79): default the scheme
to `http://`, strip + lower-case, remove the scheme, cut at the first `/`,
`?`, `#`, and prefix `http://` again. -/
def normalize_url (s : String) : String :=
  String.mk (httpScheme ++ normDomain s.toList)

/-! ### JSON values and network-call outcomes

Python values entering result records are either strings (sentinels,
extracted text), numbers (HTTP status codes, metrics) or arbitrary JSON
subtrees, so one inductive covers them. -/

/-- A Python/JSON value. -/
inductive JVal where
  | null
  | str (s : String)
  | num (n : Int)
  | jbool (b : Bool)
  | arr (xs : List JVal)
  | obj (kvs : List (String × JVal))

/-- The degradation sentinel. -/
def NA : JVal := JVal.str "N/A"

/-- Python `d.get(k, dflt)`: on a dict return the entry or the default;
on any other receiver raise (`AttributeError`). -/
def JVal.dget (j : JVal) (k : String) (dflt : JVal) : Except Unit JVal :=
  match j with
  | .obj kvs =>
    .ok (((kvs.find? (fun kv => kv.1 == k)).map (fun kv => kv.2)).getD dflt)
  | _ => .error ()

/-- Python `d[k]` on a dict: raise when the key is missing or the receiver
is not a dict. -/
def JVal.sub (j : JVal) (k : String) : Except Unit JVal :=
  match j with
  | .obj kvs =>
    match kvs.find? (fun kv => kv.1 == k) with
    | some kv => .ok kv.2
    | none => .error ()
  | _ => .error ()

/-- Python `l[i]` on a list: raise when out of range or the receiver is
not a list. -/
def JVal.idx (j : JVal) (i : Nat) : Except Unit JVal :=
  match j with
  | .arr xs =>
    match xs.get? i with
    | some v => .ok v
    | none => .error ()
  | _ => .error ()

/-- Python truthiness of a JSON value. -/
def JVal.truthy : JVal → Bool
  | .null => false
  | .str s => s != ""
  | .num n => n != 0
  | .jbool b => b
  | .arr xs => !xs.isEmpty
  | .obj kvs => !kvs.isEmpty

/-- Python `j == "s"` for a string literal. -/
def JVal.eqStr (j : JVal) (s : String) : Bool :=
  match j with
  | .str t => t == s
  | _ => false

/-- Python `j == n` for an integer literal. -/
def JVal.eqNum (j : JVal) (n : Int) : Bool :=
  match j with
  | .num m => m == n
  | _ => false

/-- Outcome of one HTTP call made through the client session: either the
call raises (transport error, client timeout), or it yields a response
with an HTTP status whose body parses to a JSON value or raises on
`response.json()`. -/
inductive Fetch where
  | exc
  | resp (status : Nat) (body : Except Unit JVal)

/-- A Python `try: body except: return handler` region: any raise inside
the body resolves to the handler's value, so the region as a whole
returns normally. -/
def tryExcept {α : Type} (body : Except Unit α) (handler : α) : Except Unit α :=
  match body with
  | .ok v => .ok v
  | .error _ => .ok handler

/-- Python `s.split(sep)` for a one-character separator: the chunks
between occurrences of the separator (an empty string splits to one
empty chunk, like Python). -/
def splitOnChar (sep : Char) : List Char → List (List Char)
  | [] => [] :: []
  | c :: rest =>
    if c == sep then [] :: splitOnChar sep rest
    else
      match splitOnChar sep rest with
      | h :: t => (c :: h) :: t
      | [] => (c :: []) :: []

/-! ### Majestic adapter (`get_majestic_data`, lines 112-143) -/

/-- The `www.` literal stripped by the Majestic URL cleaning. -/
def wwwDot : List Char := ('w' :: 'w' :: 'w' :: '.' :: [])

/-- Majestic's own URL cleaning:
`re.sub(r'^(https?://)?(www\.)?', '', url.strip().lower()).split('/')[0]`. -/
def majesticCleanUrl (s : String) : String :=
  String.mk (takeUntil '/' (
    (fun cs => if cs.take 4 == wwwDot then cs.drop 4 else cs)
      (stripScheme (pyLower (pyStrip s.toList)))))

/-- `get_majestic_data`: one GET; empty credential short-circuits to the
sentinel; the whole network/parse/extract region sits in one `try` whose
handler returns the sentinel. Returns the first ranked topic of the first
result table. The HTTP request itself is abstracted as the `env` outcome. -/
def get_majestic_data (env : Fetch) (url : String) (api_key : String) :
    Except Unit JVal :=
  if api_key == "" then .ok NA
  else
    let _cleaned := majesticCleanUrl url
    let attempt : Except Unit JVal := do
      match env with
      | .exc => throw ()
      | .resp status rbody =>
        if status != 200 then pure NA
        else do
          let data ← rbody
          let code ← data.dget "Code" .null
          if !(code.eqStr "OK") then pure NA
          else do
            let dt ← data.dget "DataTables" (.obj [])
            let tp ← dt.dget "Topics" (.obj [])
            let topics ← tp.dget "Data" (.arr [])
            if topics.truthy then do
              let first ← topics.idx 0
              first.dget "Topic" NA
            else pure NA
    tryExcept attempt NA

/-! ### Ahrefs adapter (`get_ahrefs_data`, lines 145-212) -/

/-- The three independent Ahrefs endpoint calls. -/
structure AhrefsEnv where
  dr : Fetch
  refdomains : Fetch
  traffic : Fetch

/-- The fixed-shape Ahrefs record (`results` dict of the source). -/
structure AhrefsResult where
  dr : JVal
  refdomains : JVal
  traffic : JVal

/-- The all-sentinel Ahrefs record. -/
def ahrefsNA : AhrefsResult := ⟨NA, NA, NA⟩

/-- One Ahrefs sub-call: an inner `try` wraps the GET; the field is set
only on a 200 response and a successful extraction, and keeps its initial
`"N/A"` on any failure. -/
def ahrefsField (f : Fetch) (extract : JVal → Except Unit JVal) : JVal :=
  let attempt : Except Unit JVal :=
    match f with
    | .exc => .error ()
    | .resp status rbody =>
      if status == 200 then do
        let data ← rbody
        extract data
      else pure NA
  match attempt with
  | .ok v => v
  | .error _ => NA

/-- Extraction for the domain-rating call:
`data.get("domain_rating", {}).get("domain_rating", "N/A")`. -/
def ahrefsExtractDr (data : JVal) : Except Unit JVal := do
  let x ← data.dget "domain_rating" (.obj [])
  x.dget "domain_rating" NA

/-- Extraction for the referring-domains call:
`data.get("refdomains", "N/A")`. -/
def ahrefsExtractRef (data : JVal) : Except Unit JVal :=
  data.dget "refdomains" NA

/-- Extraction for the traffic call:
`data.get("metrics", {}).get("org_traffic", "N/A")`. -/
def ahrefsExtractTraffic (data : JVal) : Except Unit JVal := do
  let x ← data.dget "metrics" (.obj [])
  x.dget "org_traffic" NA

/-- `get_ahrefs_data`: empty credential short-circuits to the all-sentinel
record; otherwise three independently-wrapped sub-calls fill the three
fields, and an outer `try` (which the wrapped body can no longer reach
with an exception) degrades to the all-sentinel record. -/
def get_ahrefs_data (env : AhrefsEnv) (api_key : String) :
    Except Unit AhrefsResult :=
  if api_key == "" then .ok ahrefsNA
  else
    tryExcept
      (.ok ⟨ahrefsField env.dr ahrefsExtractDr,
        ahrefsField env.refdomains ahrefsExtractRef,
        ahrefsField env.traffic ahrefsExtractTraffic⟩)
      ahrefsNA

/-! ### DataForSEO adapter (`get_dataforseo_data`, lines 214-303) -/

/-- The two independent DataForSEO POST calls. -/
structure DfsEnv where
  backlinks : Fetch
  traffic : Fetch

/-- The fixed-shape DataForSEO record (`results` dict of the source). -/
structure DfsResult where
  referring_domains : JVal
  traffic : JVal
  rank : JVal

/-- The all-sentinel DataForSEO record. -/
def dfsNA : DfsResult := ⟨NA, NA, NA⟩

/-- Case-insensitive `re.sub(r'^https?://', '', url, flags=IGNORECASE)`. -/
def dfsStripScheme (cs : List Char) : List Char :=
  if pyLower (cs.take 7) == httpScheme then cs.drop 7
  else if pyLower (cs.take 8) == httpsScheme then cs.drop 8
  else cs

/-- The DataForSEO domain cleaning: strip the scheme case-insensitively,
strip whitespace, cut at the first `/`, `?` or `:`, and lower-case. -/
def cleanDomain (s : String) : String :=
  String.mk (pyLower ((pyStrip (dfsStripScheme s.toList)).takeWhile
    (fun c => c != '/' && c != '?' && c != ':')))

/-- One character of the class `[a-z0-9]`. -/
def isLowerAlnumChar (c : Char) : Bool :=
  (97 ≤ c.toNat && c.toNat ≤ 122) || (48 ≤ c.toNat && c.toNat ≤ 57)

/-- One character of the class `[a-z]`. -/
def isLowerAlphaChar (c : Char) : Bool :=
  97 ≤ c.toNat && c.toNat ≤ 122

/-- One hostname label matching `[a-z0-9]+(-[a-z0-9]+)*`: dash-separated
nonempty alphanumeric chunks. -/
def validLabel (cs : List Char) : Bool :=
  (splitOnChar '-' cs).all (fun p => !p.isEmpty && p.all isLowerAlnumChar)

/-- The strict hostname check `^([a-z0-9]+(-[a-z0-9]+)*\.)+[a-z]{2,}$`:
at least one valid label, each followed by a dot, then a purely
alphabetic TLD of length at least two. -/
def validDomain (s : String) : Bool :=
  let parts := splitOnChar '.' s.toList
  decide (2 ≤ parts.length) && parts.dropLast.all validLabel &&
    (match parts.getLast? with
     | some tld => decide (2 ≤ tld.length) && tld.all isLowerAlphaChar
     | none => false)

/-- The backlinks-summary sub-call: sets the `referring_domains` and
`rank` fields together; degraded to the sentinel pair by its own `try` on
any failure. -/
def dfsBacklinksPair (f : Fetch) : JVal × JVal :=
  let attempt : Except Unit (JVal × JVal) :=
    match f with
    | .exc => .error ()
    | .resp status rbody =>
      if status == 200 then do
        let data ← rbody
        let sc ← data.dget "status_code" .null
        if !(sc.eqNum 20000) then pure (NA, NA)
        else do
          let tasks ← data.dget "tasks" .null
          if !tasks.truthy then pure (NA, NA)
          else do
            let t ← data.sub "tasks"
            let t0 ← t.idx 0
            let res ← t0.sub "result"
            let r0 ← res.idx 0
            let rd ← r0.dget "referring_main_domains" NA
            let rk ← r0.dget "rank" NA
            pure (rd, rk)
      else pure (NA, NA)
  match attempt with
  | .ok p => p
  | .error _ => (NA, NA)

/-- The bulk-traffic sub-call: guarded extraction of the first item's
organic traffic estimate; degraded to the sentinel by its own `try`. -/
def dfsTrafficField (f : Fetch) : JVal :=
  let attempt : Except Unit JVal :=
    match f with
    | .exc => .error ()
    | .resp status rbody =>
      if status == 200 then do
        let data ← rbody
        let sc ← data.dget "status_code" .null
        if !(sc.eqNum 20000) then pure NA
        else do
          let tasks ← data.dget "tasks" .null
          if !tasks.truthy then pure NA
          else do
            let t ← data.sub "tasks"
            let t0 ← t.idx 0
            let res ← t0.dget "result" .null
            if !res.truthy then pure NA
            else do
              let resl ← t0.sub "result"
              let r0 ← resl.idx 0
              let items ← r0.dget "items" .null
              if !items.truthy then pure NA
              else do
                let itemsl ← r0.sub "items"
                let first ← itemsl.idx 0
                let m ← first.dget "metrics" (.obj [])
                let o ← m.dget "organic" (.obj [])
                o.dget "etv" NA
      else pure NA
  match attempt with
  | .ok v => v
  | .error _ => NA

/-- `get_dataforseo_data`: empty or non-`login:password` credential and
syntactically invalid domains short-circuit to the all-sentinel record
before any network call; otherwise the two independently-wrapped
sub-calls fill the fields. -/
def get_dataforseo_data (env : DfsEnv) (url : String) (api_key : String) :
    Except Unit DfsResult :=
  if api_key == "" then .ok dfsNA
  else if (splitOnChar ':' api_key.toList).length != 2 then .ok dfsNA
  else
    let dom := cleanDomain url
    if !(validDomain dom) then .ok dfsNA
    else
      let bl := dfsBacklinksPair env.backlinks
      let tr := dfsTrafficField env.traffic
      .ok ⟨bl.1, tr, bl.2⟩

/-! ### HTTPS probe (`check_https`, lines 305-312) -/

/-- Python `re.sub(r'^http://', 'https://', url, flags=re.IGNORECASE)`. -/
def https_url_of (s : String) : String :=
  if pyLower (s.toList.take 7) == httpScheme then
    String.mk (httpsScheme ++ s.toList.drop 7)
  else s

/-- `check_https`: `"Yes"` exactly on a 200 response to the HTTPS form of
the URL, `"No"` otherwise, including on any raised error. -/
def check_https (f : Fetch) (url : String) : JVal :=
  let _https_url := https_url_of url
  match f with
  | .exc => JVal.str "No"
  | .resp status _ => if status == 200 then JVal.str "Yes" else JVal.str "No"

/-! ### Result records (`process_url` and friends, lines 363-498) -/

/-- A result record: a Python dict in insertion order. -/
abbrev Record := List (String × JVal)

/-- Python `r.get(k)`: the first entry with the key. The records built by
the worker never repeat a key. -/
def getField (r : Record) (k : String) : Option JVal :=
  (r.find? (fun kv => kv.1 == k)).map (fun kv => kv.2)

/-- The keys present in a record, in insertion order. -/
def recordKeys (r : Record) : List String := r.map (fun kv => kv.1)

/-- Python truthiness of an optional credential string: `None` and the
empty string are falsy. -/
def truthyKey (k : Option String) : Bool := k.getD "" != ""

/-- The per-URL network environment: the outcome of every network call
`process_url` can make for one URL. -/
structure UrlEnv where
  status : Fetch
  https : Fetch
  majestic : Fetch
  ahrefs : AhrefsEnv
  dfs : DfsEnv

/-- The success path of `process_url` (lines 363-435): fetch the status
code (degrading to `"N/A"`), run the HTTPS probe and each enabled
adapter, and assemble the record; a field group is added exactly when the
corresponding credential is truthy. -/
def process_url (env : UrlEnv) (url : String)
    (majestic_api_key ahrefs_api_key dataforseo_api_key : Option String) :
    Record :=
  let normalized_url := normalize_url url
  let status_code : JVal :=
    match env.status with
    | .exc => NA
    | .resp st _ => .num (st : Int)
  let secure_result := check_https env.https normalized_url
  let majestic_result : JVal :=
    if truthyKey majestic_api_key then
      match get_majestic_data env.majestic normalized_url
          (majestic_api_key.getD "") with
      | .ok v => v
      | .error _ => NA
    else NA
  let ahrefs_result : AhrefsResult :=
    if truthyKey ahrefs_api_key then
      match get_ahrefs_data env.ahrefs (ahrefs_api_key.getD "") with
      | .ok r => r
      | .error _ => ahrefsNA
    else ahrefsNA
  let dataforseo_result : DfsResult :=
    if truthyKey dataforseo_api_key then
      match get_dataforseo_data env.dfs normalized_url
          (dataforseo_api_key.getD "") with
      | .ok r => r
      | .error _ => dfsNA
    else dfsNA
  ( ("url", JVal.str normalized_url) :: ("status_code", status_code) ::
    ("secure", secure_result) :: [])
  ++ (if truthyKey majestic_api_key then
        ("majestic_topics", majestic_result) :: []
      else [])
  ++ (if truthyKey ahrefs_api_key then
        ("ahrefs_dr", ahrefs_result.dr) ::
        ("ahrefs_refdomains", ahrefs_result.refdomains) ::
        ("ahrefs_traffic", ahrefs_result.traffic) :: []
      else [])
  ++ (if truthyKey dataforseo_api_key then
        ("dataforseo_referring_domains", dataforseo_result.referring_domains) ::
        ("dataforseo_traffic", dataforseo_result.traffic) ::
        ("dataforseo_rank", dataforseo_result.rank) :: []
      else [])

/-- The record built by the `except` branch of `process_url`
(lines 437-463): normalized URL, every other field `"N/A"`. -/
def process_url_error_record (url : String)
    (majestic_api_key ahrefs_api_key dataforseo_api_key : Option String) :
    Record :=
  ( ("url", JVal.str (normalize_url url)) :: ("status_code", NA) ::
    ("secure", NA) :: [])
  ++ (if truthyKey majestic_api_key then ("majestic_topics", NA) :: [] else [])
  ++ (if truthyKey ahrefs_api_key then
        ("ahrefs_dr", NA) :: ("ahrefs_refdomains", NA) ::
        ("ahrefs_traffic", NA) :: []
      else [])
  ++ (if truthyKey dataforseo_api_key then
        ("dataforseo_referring_domains", NA) :: ("dataforseo_traffic", NA) ::
        ("dataforseo_rank", NA) :: []
      else [])

/-- The record built when `asyncio.wait_for` raises `TimeoutError`
(lines 472-498): RAW (un-normalized) URL, status sentinel `"Timeout"`,
every other field `"N/A"`. -/
def timeout_record (url : String)
    (majestic_api_key ahrefs_api_key dataforseo_api_key : Option String) :
    Record :=
  ( ("url", JVal.str url) :: ("status_code", JVal.str "Timeout") ::
    ("secure", NA) :: [])
  ++ (if truthyKey majestic_api_key then ("majestic_topics", NA) :: [] else [])
  ++ (if truthyKey ahrefs_api_key then
        ("ahrefs_dr", NA) :: ("ahrefs_refdomains", NA) ::
        ("ahrefs_traffic", NA) :: []
      else [])
  ++ (if truthyKey dataforseo_api_key then
        ("dataforseo_referring_domains", NA) :: ("dataforseo_traffic", NA) ::
        ("dataforseo_rank", NA) :: []
      else [])

/-- The placeholder record built by the per-URL `except` branch of
`process_job` (lines 539-565): RAW URL, status sentinel `"Error"`, field
groups keyed by the `use_*` flags. -/
def job_error_record (url : String) (use_majestic use_ahrefs use_dataforseo : Bool) :
    Record :=
  ( ("url", JVal.str url) :: ("status_code", JVal.str "Error") ::
    ("secure", NA) :: [])
  ++ (if use_majestic then ("majestic_topics", NA) :: [] else [])
  ++ (if use_ahrefs then
        ("ahrefs_dr", NA) :: ("ahrefs_refdomains", NA) ::
        ("ahrefs_traffic", NA) :: []
      else [])
  ++ (if use_dataforseo then
        ("dataforseo_referring_domains", NA) :: ("dataforseo_traffic", NA) ::
        ("dataforseo_rank", NA) :: []
      else [])

/-- `URL_TIMEOUT = 30`: the outer per-URL deadline in seconds. -/
def URL_TIMEOUT : ℚ := 30

/-- `process_url_with_timeout` (lines 465-498): run `process_url` under
`asyncio.wait_for(..., timeout=URL_TIMEOUT)`. `innerTime` is the time the
inner coroutine needs to settle; if it exceeds the deadline the wrapper
cancels it at the deadline and returns the timeout record immediately.
The second component is the time at which the wrapper returns. -/
def process_url_with_timeout (env : UrlEnv) (innerTime : ℚ) (url : String)
    (majestic_api_key ahrefs_api_key dataforseo_api_key : Option String) :
    Record × ℚ :=
  if innerTime ≤ URL_TIMEOUT then
    (process_url env url majestic_api_key ahrefs_api_key dataforseo_api_key,
      innerTime)
  else
    (timeout_record url majestic_api_key ahrefs_api_key dataforseo_api_key,
      URL_TIMEOUT)

/-! ### Sequential structure of `process_url` (lines 363-408)

Each network operation inside `process_url` is reached through a plain
`await` in source order: the coroutine suspends until that operation
settles before the next one starts. `seqSpans` assigns each awaited
operation its busy interval under this scheduling. -/

/-- The busy interval of one awaited operation. -/
structure OpSpan where
  name : String
  start : ℚ
  stop : ℚ
deriving DecidableEq

/-- Sequential scheduling: each operation starts when the previous one
stops. -/
def seqSpans (t0 : ℚ) : List (String × ℚ) → List OpSpan
  | [] => []
  | (n, dur) :: rest => OpSpan.mk n t0 (t0 + dur) :: seqSpans (t0 + dur) rest

/-- The durations of the network operations of one URL. -/
structure UrlDurations where
  status : ℚ
  https : ℚ
  majestic : ℚ
  ahrefs : ℚ
  dataforseo : ℚ

/-- The awaited operations of `process_url`, in source order: the status
fetch, the HTTPS probe, then each enabled adapter. -/
def process_url_ops
    (majestic_api_key ahrefs_api_key dataforseo_api_key : Option String)
    (d : UrlDurations) : List (String × ℚ) :=
  ( ("status_fetch", d.status) :: ("check_https", d.https) :: [])
  ++ (if truthyKey majestic_api_key then
        ("get_majestic_data", d.majestic) :: [] else [])
  ++ (if truthyKey ahrefs_api_key then
        ("get_ahrefs_data", d.ahrefs) :: [] else [])
  ++ (if truthyKey dataforseo_api_key then
        ("get_dataforseo_data", d.dataforseo) :: [] else [])

/-- The busy intervals of the operations of one URL as `process_url`
actually schedules them (strictly in sequence). -/
def process_url_spans
    (majestic_api_key ahrefs_api_key dataforseo_api_key : Option String)
    (d : UrlDurations) : List OpSpan :=
  seqSpans 0
    (process_url_ops majestic_api_key ahrefs_api_key dataforseo_api_key d)

/-! ### The status file and `process_job` (lines 500-628) -/

/-- The status-file JSON object. Fields absent from a given write are
`none`. -/
structure StatusFile where
  state : String
  progress : Nat
  total : Nat
  elapsed_seconds : Option ℚ
  estimated_remaining_seconds : Option ℚ
  successful : Option Nat
  errors : Option Nat
  duration_seconds : Option ℚ
  avg_time_per_url : Option ℚ
  download_url : Option String
  error_message : Option String
deriving DecidableEq

/-- The initial claim write (line 516): `processing`, zero progress. -/
def initial_status (total : Nat) : StatusFile :=
  ⟨ "processing", 0, total, none, none, none, none, none, none, none, none⟩

/-- The progress write after the `i+1`-st URL (lines 567-580): elapsed
time so far and the remaining-time extrapolation
`(elapsed / progress) * (total - progress)`. -/
def progress_status (progress total : Nat) (elapsed : ℚ) : StatusFile :=
  let avg_time_per_url := elapsed / (progress : ℚ)
  let remaining_estimate := avg_time_per_url * ((total : ℚ) - (progress : ℚ))
  ⟨ "processing", progress, total, some elapsed, some remaining_estimate,
    none, none, none, none, none, none⟩

/-- The sequence of progress writes of the URL loop: exactly one after
each URL, where the elapsed clock after `i+1` URLs is the sum of the
first `i+1` per-URL durations. -/
def progress_updates (total : Nat) (durs : List ℚ) : List StatusFile :=
  (List.range total).map (fun i =>
    progress_status (i + 1) total ((durs.take (i + 1)).sum))

/-- Line 600: a URL counts as successful when its record's status code is
none of the sentinels `"Timeout"`, `"Error"`, `"N/A"`. -/
def statusIsErrorSentinel (r : Record) : Bool :=
  match getField r "status_code" with
  | some v => v.eqStr "Timeout" || v.eqStr "Error" || v.eqStr "N/A"
  | none => false

/-- `successful_urls` (line 600). -/
def successful_urls (results : List Record) : Nat :=
  results.countP (fun r => !(statusIsErrorSentinel r))

/-- `error_urls` (line 601): the remainder. -/
def error_urls (results : List Record) : Nat :=
  results.length - successful_urls results

/-- The terminal `completed` write (lines 603-614). -/
def completed_status (job_id : String) (results : List Record)
    (urlsTotal : Nat) (total_duration : ℚ) : StatusFile :=
  ⟨ "completed", results.length, urlsTotal, none, none,
    some (successful_urls results), some (error_urls results),
    some total_duration,
    some (if 0 < urlsTotal then total_duration / (urlsTotal : ℚ) else 0),
    some ( "/download_result/" ++ job_id), none⟩

/-- The terminal `error` write (lines 619-628). -/
def error_status (msg : String) (progress total : Nat) : StatusFile :=
  ⟨ "error", progress, total, none, none, none, none, none, none, none,
    some msg⟩

/-- The outcome of one iteration of the URL loop, i.e. of the awaited
`process_url_with_timeout` call: either a returned record or an unhandled
exception caught by the per-URL `except` branch. -/
inductive UrlStep where
  | done (r : Record)
  | raised

/-- The result list accumulated by the URL loop (lines 528-565): the
returned record, or the `"Error"` placeholder on an unhandled exception. -/
def jobResults (urls : List String)
    (use_majestic use_ahrefs use_dataforseo : Bool)
    (steps : List UrlStep) : List Record :=
  List.zipWith (fun url step =>
    match step with
    | UrlStep.done r => r
    | UrlStep.raised => job_error_record url use_majestic use_ahrefs use_dataforseo)
    urls steps

/-! ### Interleaving of the worker with the cancellation endpoint

`process_job` writes the status file; `cancel_job` (app.py lines 183-216)
may run between any two worker steps, and for a `processing` status file
rewrites only its `status` field to `cancelled`. The worker itself NEVER
reads the status file. -/

/-- Replace only the lifecycle state, as `cancel_job` does when it
rewrites the parsed JSON with `status` set to `cancelled`. -/
def setState (f : StatusFile) (s : String) : StatusFile :=
  ⟨s, f.progress, f.total, f.elapsed_seconds, f.estimated_remaining_seconds,
    f.successful, f.errors, f.duration_seconds, f.avg_time_per_url,
    f.download_url, f.error_message⟩

/-- An event touching the job's files. -/
inductive JobEv where
  | statusWrite (f : StatusFile)
  | artifactWrite
  | cancelRequest

/-- The job's on-disk state: the status file content and whether the
`.ods` artifact exists. -/
structure JobFiles where
  statusFile : Option StatusFile
  artifact : Bool
deriving DecidableEq

/-- Effect of one event. A worker write replaces the whole status file; a
cancellation request flips the state to `cancelled` only when the current
state is `processing` (queued-job cancellation deletes the descriptor
instead and does not touch a status file). -/
def applyEv (fs : JobFiles) : JobEv → JobFiles
  | .statusWrite f => ⟨some f, fs.artifact⟩
  | .artifactWrite => ⟨fs.statusFile, true⟩
  | .cancelRequest =>
    match fs.statusFile with
    | some f =>
      if f.state == "processing" then ⟨some (setState f "cancelled"), fs.artifact⟩
      else fs
    | none => fs

/-- The full event sequence `process_job` performs on the job's files
when every URL settles: the claim write, one progress write per URL, the
artifact write, then the terminal `completed` write. No event reads the
status file, and no event between them polls for cancellation. -/
def process_job_events (job_id : String) (urls : List String)
    (durs : List ℚ) (results : List Record) : List JobEv :=
  JobEv.statusWrite (initial_status urls.length)
    :: (progress_updates urls.length durs).map JobEv.statusWrite
    ++ JobEv.artifactWrite
    :: JobEv.statusWrite (completed_status job_id results urls.length durs.sum)
    :: []

/-- Run a worker event sequence with one cancellation request injected
after the first `k` worker events. -/
def runWithCancelAfter (evs : List JobEv) (k : Nat) : JobFiles :=
  (evs.take k ++ JobEv.cancelRequest :: evs.drop k).foldl applyEv ⟨none, false⟩

/-! ### Rate limiter (`RateLimiter.wait_if_needed`, lines 40-61) -/

/-- Result of one admission: the delay slept and the new timestamp list. -/
structure RLStep where
  delay : ℚ
  calls : List ℚ
deriving DecidableEq

/-- The timestamps retained by the cleaning pass: entries still inside
the trailing window. -/
def rlKept (unit_time : ℚ) (calls : List ℚ) (now : ℚ) : List ℚ :=
  calls.filter (fun t => decide (now - t < unit_time))

/-- `wait_if_needed`: drop entries older than the window; when the
retained count has reached the capacity, sleep until the oldest retained
entry exits the window (the code guards the sleep by `sleep_time > 0`)
and drop it; finally record the admission-request timestamp `now`. -/
def wait_if_needed (calls_per_unit : Nat) (unit_time : ℚ)
    (calls : List ℚ) (now : ℚ) : RLStep :=
  let kept := rlKept unit_time calls now
  if calls_per_unit ≤ kept.length then
    let sleep_time := kept.headD 0 + unit_time - now
    ⟨if 0 < sleep_time then sleep_time else 0, kept.tail ++ now :: []⟩
  else ⟨0, kept ++ now :: []⟩

/-! ### Expected record schema

The field set the specification promises: `{url, status, https}` union
the fields of the job's enabled sources, in the insertion order the
worker uses. -/

/-- The spec-side field set of a record, determined only by the
enabled-source set. -/
def expectedKeys (use_majestic use_ahrefs use_dataforseo : Bool) : List String :=
  ( "url" :: "status_code" :: "secure" :: [])
  ++ (if use_majestic then "majestic_topics" :: [] else [])
  ++ (if use_ahrefs then
        "ahrefs_dr" :: "ahrefs_refdomains" :: "ahrefs_traffic" :: []
      else [])
  ++ (if use_dataforseo then
        "dataforseo_referring_domains" :: "dataforseo_traffic" ::
        "dataforseo_rank" :: []
      else [])

/-! ### Concrete fixtures used by closed theorems and witnesses -/

/-- A one-character credential. -/
def sampleKey : String := String.mk ('k' :: [])

/-- A one-character URL. -/
def sampleUrl : String := String.mk ('u' :: [])

/-- The URL `http://example.com`. -/
def sampleDomainUrl : String :=
  String.mk (httpScheme ++
    ('e' :: 'x' :: 'a' :: 'm' :: 'p' :: 'l' :: 'e' :: '.' :: 'c' :: 'o' :: 'm' :: []))

/-- The credential `a:b` (a valid `login:password` pair). -/
def sampleCred : String := String.mk ('a' :: ':' :: 'b' :: [])

/-- A network environment in which every call raises. -/
def sampleUrlEnv : UrlEnv :=
  ⟨Fetch.exc, Fetch.exc, Fetch.exc, ⟨Fetch.exc, Fetch.exc, Fetch.exc⟩,
    ⟨Fetch.exc, Fetch.exc⟩⟩

/-- A successfully enriched record (no source enabled). -/
def c1OkRecord : Record :=
  ("url", JVal.str sampleUrl) :: ("status_code", JVal.num 200) ::
    ("secure", JVal.str "Yes") :: []

/-- A five-URL job list. -/
def c1Urls : List String :=
  sampleUrl :: sampleUrl :: sampleUrl :: sampleUrl :: sampleUrl :: []

/-- One time unit per URL. -/
def c1Durs : List ℚ := (1 : ℚ) :: 1 :: 1 :: 1 :: 1 :: []

/-- All five URLs enrich successfully. -/
def c1Results : List Record :=
  c1OkRecord :: c1OkRecord :: c1OkRecord :: c1OkRecord :: c1OkRecord :: []

/-- A job identifier. -/
def c1JobId : String := String.mk ('j' :: [])

/-- The worker's event sequence for the five-URL job. -/
def c1Events : List JobEv := process_job_events c1JobId c1Urls c1Durs c1Results

/-! ## Lemmas and claim theorems -/

/-! ### Character-level lemmas -/

theorem charOfNat_toNat (n : Nat) (h : n < 55296) : (Char.ofNat n).toNat = n := by
  rw [Char.ofNat, dif_pos]
  · rfl
  · left
    omega

theorem pyLowerChar_toNat (c : Char) (h : 65 ≤ c.toNat ∧ c.toNat ≤ 90) :
    (pyLowerChar c).toNat = c.toNat + 32 := by
  rw [pyLowerChar, if_pos h]
  exact charOfNat_toNat _ (by omega)

theorem pyLowerChar_eq_of_not (c : Char) (h : ¬ (65 ≤ c.toNat ∧ c.toNat ≤ 90)) :
    pyLowerChar c = c := by
  rw [pyLowerChar, if_neg h]

theorem pyLowerChar_idem (c : Char) : pyLowerChar (pyLowerChar c) = pyLowerChar c := by
  by_cases h : 65 ≤ c.toNat ∧ c.toNat ≤ 90
  · have ht := pyLowerChar_toNat c h
    exact pyLowerChar_eq_of_not _ (by omega)
  · rw [pyLowerChar_eq_of_not c h]
    exact pyLowerChar_eq_of_not c h

theorem isPySpace_pyLowerChar (c : Char) (h : isPySpace c = false) :
    isPySpace (pyLowerChar c) = false := by
  by_cases hc : 65 ≤ c.toNat ∧ c.toNat ≤ 90
  · have ht := pyLowerChar_toNat c hc
    simp only [isPySpace, Bool.or_eq_false_iff, decide_eq_false_iff_not] at h ⊢
    omega
  · rw [pyLowerChar_eq_of_not c hc]
    exact h

/-! ### List-level helper lemmas -/

theorem dropWhile_eq_self_of_all (p : Char → Bool) (l : List Char)
    (h : ∀ c ∈ l, p c = false) : l.dropWhile p = l := by
  cases l with
  | nil => rfl
  | cons a t => simp [List.dropWhile_cons, h a (List.mem_cons_self a t)]

theorem mem_pyStripL (c : Char) (l : List Char) (h : c ∈ pyStripL l) : c ∈ l :=
  (List.dropWhile_sublist isPySpace).mem h

theorem mem_pyStripR (c : Char) (l : List Char) (h : c ∈ pyStripR l) : c ∈ l := by
  rw [pyStripR, List.mem_reverse] at h
  exact List.mem_reverse.mp ((List.dropWhile_sublist isPySpace).mem h)

theorem mem_pyStrip (c : Char) (l : List Char) (h : c ∈ pyStrip l) : c ∈ l :=
  mem_pyStripL c l (mem_pyStripR c (pyStripL l) h)

theorem pyStrip_eq_self_of_all (l : List Char) (h : ∀ c ∈ l, isPySpace c = false) :
    pyStrip l = l := by
  rw [pyStrip, pyStripL, dropWhile_eq_self_of_all _ _ h, pyStripR,
    dropWhile_eq_self_of_all _ _ (fun c hc => h c (List.mem_reverse.mp hc)),
    List.reverse_reverse]

theorem stripScheme_sublist (l : List Char) : List.Sublist (stripScheme l) l := by
  rw [stripScheme]
  split
  · exact List.drop_sublist 7 l
  · split
    · exact List.drop_sublist 8 l
    · exact List.Sublist.refl l

theorem takeUntil_eq_self (sep : Char) (l : List Char)
    (h : ∀ c ∈ l, (c != sep) = true) : takeUntil sep l = l :=
  List.takeWhile_eq_self_iff.mpr h

theorem mem_takeUntil (sep c : Char) (l : List Char) (h : c ∈ takeUntil sep l) :
    c ∈ l ∧ c ≠ sep := by
  refine ⟨(List.takeWhile_sublist _).mem h, ?_⟩
  have := List.mem_takeWhile_imp h
  simpa using this

theorem take7_httpScheme_append (d : List Char) :
    (httpScheme ++ d).take 7 = httpScheme := List.take_left httpScheme d

theorem drop7_httpScheme_append (d : List Char) :
    (httpScheme ++ d).drop 7 = d := List.drop_left httpScheme d

theorem hasScheme_httpScheme_append (d : List Char) :
    hasScheme (httpScheme ++ d) = true := by
  simp [hasScheme, take7_httpScheme_append]

theorem withScheme_httpScheme_append (d : List Char) :
    withScheme (httpScheme ++ d) = httpScheme ++ d := by
  rw [withScheme, if_pos (hasScheme_httpScheme_append d)]

theorem stripScheme_httpScheme_append (d : List Char) :
    stripScheme (httpScheme ++ d) = d := by
  rw [stripScheme, if_pos]
  · exact drop7_httpScheme_append d
  · simp [take7_httpScheme_append]

theorem pyLower_eq_self (l : List Char) (h : ∀ c ∈ l, pyLowerChar c = c) :
    pyLower l = l := by
  rw [pyLower]
  exact (List.map_congr_left h).trans (List.map_id l)

/-! ### Structure of the normalized domain -/

theorem mem_normDomain (c : Char) (cs : List Char) (h : c ∈ normDomain cs) :
    (∃ b ∈ withScheme cs, c = pyLowerChar b) ∧ c ≠ '/' ∧ c ≠ '?' ∧ c ≠ '#' := by
  rw [normDomain] at h
  obtain ⟨h1, hne3⟩ := mem_takeUntil _ _ _ h
  obtain ⟨h2, hne2⟩ := mem_takeUntil _ _ _ h1
  obtain ⟨h3, hne1⟩ := mem_takeUntil _ _ _ h2
  have h4 : c ∈ pyLower (pyStrip (withScheme cs)) := (stripScheme_sublist _).mem h3
  rw [pyLower, List.mem_map] at h4
  obtain ⟨b, hb, hbc⟩ := h4
  exact ⟨⟨b, mem_pyStrip b _ hb, hbc.symm⟩, hne1, hne2, hne3⟩

theorem mem_normDomain_lower (c : Char) (cs : List Char) (h : c ∈ normDomain cs) :
    pyLowerChar c = c := by
  obtain ⟨⟨b, _, hbc⟩, _⟩ := mem_normDomain c cs h
  rw [hbc]
  exact pyLowerChar_idem b

theorem mem_httpScheme_nonspace : ∀ c ∈ httpScheme, isPySpace c = false := by decide

theorem mem_httpScheme_lower : ∀ c ∈ httpScheme, pyLowerChar c = c := by decide

theorem mem_normDomain_nonspace (c : Char) (cs : List Char)
    (hcs : ∀ c ∈ cs, isPySpace c = false) (h : c ∈ normDomain cs) :
    isPySpace c = false := by
  obtain ⟨⟨b, hb, hbc⟩, _⟩ := mem_normDomain c cs h
  have hbs : isPySpace b = false := by
    rw [withScheme] at hb
    by_cases hs : hasScheme cs = true
    · rw [if_pos hs] at hb
      exact hcs b hb
    · rw [if_neg hs, List.mem_append] at hb
      rcases hb with hb | hb
      · exact mem_httpScheme_nonspace b hb
      · exact hcs b hb
  rw [hbc]
  exact isPySpace_pyLowerChar b hbs

theorem normDomain_httpScheme_append (d : List Char)
    (hlow : ∀ c ∈ d, pyLowerChar c = c)
    (hns : ∀ c ∈ d, isPySpace c = false)
    (hsep : ∀ c ∈ d, c ≠ '/' ∧ c ≠ '?' ∧ c ≠ '#') :
    normDomain (httpScheme ++ d) = d := by
  have h1 : takeUntil '/' d = d :=
    takeUntil_eq_self _ _ (fun c hc => by simpa using (hsep c hc).1)
  have h2 : takeUntil '?' d = d :=
    takeUntil_eq_self _ _ (fun c hc => by simpa using (hsep c hc).2.1)
  have h3 : takeUntil '#' d = d :=
    takeUntil_eq_self _ _ (fun c hc => by simpa using (hsep c hc).2.2)
  rw [normDomain, withScheme_httpScheme_append,
    pyStrip_eq_self_of_all _ (fun c hc => by
      rcases List.mem_append.mp hc with hc | hc
      · exact mem_httpScheme_nonspace c hc
      · exact hns c hc),
    pyLower_eq_self _ (fun c hc => by
      rcases List.mem_append.mp hc with hc | hc
      · exact mem_httpScheme_lower c hc
      · exact hlow c hc),
    stripScheme_httpScheme_append, h1, h2, h3]

/-! ### Claims C4 and C10: the URL-normalization helper -/

/-- Claim C4, counterexample: `normalize_url` does not strip a leading
`www.` — on input `www.example.com` the result keeps the `www.` part,
so the result is not always `http://` followed by a domain without
`www.` as the claim states. -/
theorem C4_counterexample :
    normalize_url (String.mk ('w' :: 'w' :: 'w' :: '.' :: 'e' :: 'x' :: 'a' :: 'm' :: 'p' :: 'l' :: 'e' :: '.' :: 'c' :: 'o' :: 'm' :: [])) =
      String.mk (httpScheme ++ ('w' :: 'w' :: 'w' :: '.' :: 'e' :: 'x' :: 'a' :: 'm' :: 'p' :: 'l' :: 'e' :: '.' :: 'c' :: 'o' :: 'm' :: [])) ∧
    normalize_url (String.mk ('w' :: 'w' :: 'w' :: '.' :: 'e' :: 'x' :: 'a' :: 'm' :: 'p' :: 'l' :: 'e' :: '.' :: 'c' :: 'o' :: 'm' :: [])) ≠
      String.mk (httpScheme ++ ('e' :: 'x' :: 'a' :: 'm' :: 'p' :: 'l' :: 'e' :: '.' :: 'c' :: 'o' :: 'm' :: [])) := by
  constructor
  · rfl
  · decide

/-- Claim C4 (amended): for every input string, `normalize_url` produces
`http://` followed by a domain part that is lower-cased and free of `/`,
`?` and `#` (path, query and fragment are stripped), and prefixing the
`http://` scheme to a scheme-less input does not change the result (the
scheme defaults to `http://`); however the helper does NOT strip a
leading `www.`. -/
theorem C4_normalize_url_amended :
    (∀ s : String, ∃ d : List Char, normalize_url s = String.mk (httpScheme ++ d) ∧
      ∀ c ∈ d, pyLowerChar c = c ∧ c ≠ '/' ∧ c ≠ '?' ∧ c ≠ '#') ∧
    (∀ s : String, hasScheme s.toList = false →
      normalize_url (String.mk (httpScheme ++ s.toList)) = normalize_url s) := by
  constructor
  · intro s
    refine ⟨normDomain s.toList, rfl, fun c hc => ?_⟩
    obtain ⟨_, hsep⟩ := mem_normDomain c s.toList hc
    exact ⟨mem_normDomain_lower c s.toList hc, hsep⟩
  · intro s h
    rw [normalize_url, normalize_url]
    have h1 : (String.mk (httpScheme ++ s.toList)).toList = httpScheme ++ s.toList := rfl
    simp only [String.toList] at h
    rw [h1, normDomain, normDomain, withScheme_httpScheme_append, withScheme, if_neg]
    simp [h]

/-- Witness for C4: the amended theorem applied at the concrete scheme-less
input `Example.com`. -/
theorem C4_normalize_url_amended_witness :
    normalize_url (String.mk (httpScheme ++ ('E' :: 'x' :: 'a' :: 'm' :: 'p' :: 'l' :: 'e' :: '.' :: 'c' :: 'o' :: 'm' :: []))) =
      normalize_url (String.mk ('E' :: 'x' :: 'a' :: 'm' :: 'p' :: 'l' :: 'e' :: '.' :: 'c' :: 'o' :: 'm' :: [])) :=
  C4_normalize_url_amended.2 (String.mk ('E' :: 'x' :: 'a' :: 'm' :: 'p' :: 'l' :: 'e' :: '.' :: 'c' :: 'o' :: 'm' :: [])) (by decide)

/-- Claim C10, counterexample: `normalize_url` is not idempotent. On input
`"a ?"` it yields `http://a` followed by a space (the query is cut but the
space before `?` survives); a second application strips that trailing
space, giving a different string. -/
theorem C10_counterexample :
    normalize_url (normalize_url (String.mk ('a' :: ' ' :: '?' :: []))) ≠
      normalize_url (String.mk ('a' :: ' ' :: '?' :: [])) := by decide

/-- Claim C10 (amended): `normalize_url` output never contains `/`, `?`
or `#` after the `http://` prefix, and the helper is idempotent on every
input containing no whitespace character (in general a second application
additionally strips whitespace left at the edges of the domain part). -/
theorem C10_normalize_url_idempotent_amended :
    (∀ s : String, (∀ c ∈ s.toList, isPySpace c = false) →
      normalize_url (normalize_url s) = normalize_url s) ∧
    (∀ s : String, ∀ c ∈ (normalize_url s).toList.drop 7,
      c ≠ '/' ∧ c ≠ '?' ∧ c ≠ '#') := by
  constructor
  · intro s hs
    show String.mk (httpScheme ++ normDomain (httpScheme ++ normDomain s.toList)) =
      String.mk (httpScheme ++ normDomain s.toList)
    rw [normDomain_httpScheme_append (normDomain s.toList)
      (fun c hc => mem_normDomain_lower c s.toList hc)
      (fun c hc => mem_normDomain_nonspace c s.toList hs hc)
      (fun c hc => (mem_normDomain c s.toList hc).2)]
  · intro s c hc
    have hlist : (normalize_url s).toList = httpScheme ++ normDomain s.toList := rfl
    rw [hlist, drop7_httpScheme_append] at hc
    exact (mem_normDomain c s.toList hc).2

/-- Witness for C10: the amended theorem applied at the whitespace-free
concrete input `example.com`. -/
theorem C10_normalize_url_idempotent_amended_witness :
    normalize_url (normalize_url (String.mk ('e' :: 'x' :: 'a' :: 'm' :: 'p' :: 'l' :: 'e' :: '.' :: 'c' :: 'o' :: 'm' :: []))) =
      normalize_url (String.mk ('e' :: 'x' :: 'a' :: 'm' :: 'p' :: 'l' :: 'e' :: '.' :: 'c' :: 'o' :: 'm' :: [])) :=
  C10_normalize_url_idempotent_amended.1 (String.mk ('e' :: 'x' :: 'a' :: 'm' :: 'p' :: 'l' :: 'e' :: '.' :: 'c' :: 'o' :: 'm' :: [])) (by decide)


/-! ### Claim C2: the outer per-URL deadline -/

/-- In a timeout record every field other than the URL and the status
code is the sentinel. -/
theorem timeout_record_na (url : String) (mk ak dk : Option String) :
    ∀ kv ∈ timeout_record url mk ak dk,
      kv.1 ≠ "url" → kv.1 ≠ "status_code" → kv.2 = NA := by
  intro kv hkv h1 h2
  by_cases hm : truthyKey mk = true <;> by_cases ha : truthyKey ak = true <;>
    by_cases hd : truthyKey dk = true <;>
    simp [timeout_record, hm, ha, hd] at hkv <;>
    casesm* _ ∨ _ <;> simp_all

/-- Claim C2: whenever the inner enrichment of a URL does not settle
within the fixed 30-second outer deadline, `process_url_with_timeout`
returns a record whose status-code field is the sentinel `"Timeout"` and
in which every field other than the URL and status code (in particular
every enabled-source field) is `"N/A"`, and it returns at the deadline
itself rather than waiting for the inner call to settle. -/
theorem C2_timeout_sentinel (env : UrlEnv) (t : ℚ) (url : String)
    (mk ak dk : Option String) (h : URL_TIMEOUT < t) :
    getField (process_url_with_timeout env t url mk ak dk).1 "status_code" =
      some (JVal.str "Timeout") ∧
    (∀ kv ∈ (process_url_with_timeout env t url mk ak dk).1,
      kv.1 ≠ "url" → kv.1 ≠ "status_code" → kv.2 = NA) ∧
    (process_url_with_timeout env t url mk ak dk).2 = URL_TIMEOUT := by
  have hn : ¬ t ≤ URL_TIMEOUT := not_le.mpr h
  refine ⟨?_, ?_, ?_⟩
  · rw [process_url_with_timeout, if_neg hn]
    rfl
  · intro kv hkv
    rw [process_url_with_timeout, if_neg hn] at hkv
    exact timeout_record_na url mk ak dk kv hkv
  · rw [process_url_with_timeout, if_neg hn]

/-- Witness for C2: the theorem applied to a concrete 31-second inner
enrichment, which exceeds the 30-second deadline. -/
theorem C2_timeout_sentinel_witness :
    getField
      (process_url_with_timeout sampleUrlEnv 31 sampleUrl (some sampleKey)
        (some sampleKey) (some sampleKey)).1 "status_code" =
      some (JVal.str "Timeout") ∧
    (process_url_with_timeout sampleUrlEnv 31 sampleUrl (some sampleKey)
      (some sampleKey) (some sampleKey)).2 = URL_TIMEOUT :=
  ⟨(C2_timeout_sentinel sampleUrlEnv 31 sampleUrl (some sampleKey)
      (some sampleKey) (some sampleKey) (by norm_num [URL_TIMEOUT])).1,
    (C2_timeout_sentinel sampleUrlEnv 31 sampleUrl (some sampleKey)
      (some sampleKey) (some sampleKey) (by norm_num [URL_TIMEOUT])).2.2⟩

/-! ### Claim C3: the fan-out that is not there -/

/-- Under the sequential scheduling of a single coroutine, each awaited
operation starts exactly when the previous one stops. -/
theorem seqSpans_chain (t0 : ℚ) (l : List (String × ℚ)) :
    (seqSpans t0 l).Chain' (fun a b => a.stop = b.start) := by
  induction l generalizing t0 with
  | nil => simp [seqSpans]
  | cons p rest ih =>
    obtain ⟨n, dur⟩ := p
    cases rest with
    | nil => simp [seqSpans]
    | cons q rest2 =>
      obtain ⟨qn, qd⟩ := q
      show List.Chain' _ (OpSpan.mk n t0 (t0 + dur) ::
        OpSpan.mk qn (t0 + dur) (t0 + dur + qd) :: seqSpans (t0 + dur + qd) rest2)
      rw [List.chain'_cons]
      exact ⟨rfl, ih (t0 + dur)⟩

/-- Claim C3, settled against the code: the operations of `process_url`
are NOT concurrent. Every busy interval ends exactly where the next one
starts (strict sequencing, no two operations ever in flight together),
and at the failing input — all three sources enabled, every operation
taking one time unit — the five operations occupy the disjoint intervals
0-1, 1-2, 2-3, 3-4, 4-5, so the URL takes the SUM of the durations, not
their maximum as a concurrent fan-out would. -/
theorem C3_process_url_sequential :
    (∀ (mk ak dk : Option String) (d : UrlDurations),
      (process_url_spans mk ak dk d).Chain' (fun a b => a.stop = b.start)) ∧
    process_url_spans (some sampleKey) (some sampleKey) (some sampleKey)
        ⟨1, 1, 1, 1, 1⟩ =
      OpSpan.mk "status_fetch" 0 1 :: OpSpan.mk "check_https" 1 2 ::
        OpSpan.mk "get_majestic_data" 2 3 ::
        OpSpan.mk "get_ahrefs_data" 3 4 ::
        OpSpan.mk "get_dataforseo_data" 4 5 :: [] := by
  constructor
  · intro mk ak dk d
    exact seqSpans_chain 0 (process_url_ops mk ak dk d)
  · have hk : truthyKey (some sampleKey) = true := by decide
    norm_num [process_url_spans, process_url_ops, seqSpans, hk]

/-! ### Claim C6: the record schema is the enabled-source set -/

/-- Claim C6: for every record path (success, per-URL exception, timeout,
job-level per-URL error), assuming every enabled source has a non-empty
credential, the keys present in the record are exactly
`{url, status_code, secure}` followed by the fields of the enabled
sources — independent of the per-URL outcome. -/
theorem C6_record_schema (use_m use_a use_d : Bool) (jm ja jd : Option String)
    (env : UrlEnv) (url : String)
    (hm : use_m = true → jm.getD "" ≠ "")
    (ha : use_a = true → ja.getD "" ≠ "")
    (hd : use_d = true → jd.getD "" ≠ "") :
    recordKeys (process_url env url (if use_m then jm else none)
        (if use_a then ja else none) (if use_d then jd else none)) =
      expectedKeys use_m use_a use_d ∧
    recordKeys (process_url_error_record url (if use_m then jm else none)
        (if use_a then ja else none) (if use_d then jd else none)) =
      expectedKeys use_m use_a use_d ∧
    recordKeys (timeout_record url (if use_m then jm else none)
        (if use_a then ja else none) (if use_d then jd else none)) =
      expectedKeys use_m use_a use_d ∧
    recordKeys (job_error_record url use_m use_a use_d) =
      expectedKeys use_m use_a use_d := by
  have km : use_m = true → truthyKey jm = true :=
    fun h => by simpa [truthyKey] using hm h
  have ka : use_a = true → truthyKey ja = true :=
    fun h => by simpa [truthyKey] using ha h
  have kd : use_d = true → truthyKey jd = true :=
    fun h => by simpa [truthyKey] using hd h
  have tnone : truthyKey (none : Option String) = false := rfl
  cases use_m <;> cases use_a <;> cases use_d <;>
    refine ⟨?_, ?_, ?_, ?_⟩ <;>
    simp [process_url, process_url_error_record, timeout_record,
      job_error_record, recordKeys, expectedKeys, km, ka, kd, tnone]

/-- Witness for C6: all three sources enabled with the concrete non-empty
credential `k`, on the all-raising network environment. -/
theorem C6_record_schema_witness :
    recordKeys (process_url sampleUrlEnv sampleUrl (some sampleKey)
        (some sampleKey) (some sampleKey)) =
      expectedKeys true true true :=
  (C6_record_schema true true true (some sampleKey) (some sampleKey)
    (some sampleKey) sampleUrlEnv sampleUrl
    (fun _ => by decide) (fun _ => by decide) (fun _ => by decide)).1

/-! ### Claim C7: the sliding-window rate limiter -/

/-- Claim C7: one admission keeps exactly the timestamps still inside the
trailing window; when the retained count has reached the capacity the
admission sleeps exactly until the oldest retained timestamp exits the
window (the sleep is always strictly positive in that case, so the
`sleep_time > 0` guard never suppresses it), drops that oldest entry and
records the new call; below capacity it proceeds with zero delay; the
delay is always a finite non-negative number, so an admission always
returns and never rejects. In particular, with capacity 2 per 1 time
unit, of three back-to-back admissions at time `t0` the third sleeps
exactly 1, completing no earlier than `t0 + 1`. -/
theorem C7_rate_limiter :
    (∀ (K : Nat) (W : ℚ) (calls : List ℚ) (now : ℚ), 1 ≤ K → 0 < W →
      ((wait_if_needed K W calls now).calls =
        (if K ≤ (rlKept W calls now).length then (rlKept W calls now).tail
          else rlKept W calls now) ++ now :: []) ∧
      (K ≤ (rlKept W calls now).length →
        (wait_if_needed K W calls now).delay =
          (rlKept W calls now).headD 0 + W - now ∧
        0 < (wait_if_needed K W calls now).delay) ∧
      ((rlKept W calls now).length < K →
        (wait_if_needed K W calls now).delay = 0) ∧
      (0 ≤ (wait_if_needed K W calls now).delay) ∧
      (∀ t ∈ rlKept W calls now, t ∈ calls ∧ now - t < W) ∧
      (∀ t ∈ calls, now - t < W → t ∈ rlKept W calls now)) ∧
    (∀ t0 : ℚ,
      (wait_if_needed 2 1
        ((wait_if_needed 2 1 ((wait_if_needed 2 1 [] t0).calls) t0).calls)
        t0).delay = 1) := by
  constructor
  · intro K W calls now hK hW
    by_cases hlen : K ≤ (rlKept W calls now).length
    · have hne : rlKept W calls now ≠ [] := by
        intro hnil
        rw [hnil] at hlen
        simp at hlen
        omega
      obtain ⟨h0, t, hkt⟩ := List.exists_cons_of_ne_nil hne
      have hmem : h0 ∈ rlKept W calls now := by
        rw [hkt]
        exact List.mem_cons_self h0 t
      have hlt : now - h0 < W := by
        rw [rlKept] at hmem
        exact of_decide_eq_true (List.mem_filter.mp hmem).2
      have hhead : (rlKept W calls now).headD 0 = h0 := by
        rw [hkt]
        rfl
      have hpos : 0 < (rlKept W calls now).headD 0 + W - now := by
        rw [hhead]
        linarith
      have hdelay : (wait_if_needed K W calls now).delay =
          (rlKept W calls now).headD 0 + W - now := by
        simp only [wait_if_needed]
        rw [if_pos hlen, if_pos hpos]
      refine ⟨?_, fun _ => ⟨hdelay, ?_⟩, ?_, ?_, ?_, ?_⟩
      · simp [wait_if_needed, hlen]
      · rw [hdelay]
        exact hpos
      · intro hc
        exact absurd hlen (not_le.mpr hc)
      · rw [hdelay]
        linarith
      · intro s hs
        rw [rlKept] at hs
        exact ⟨(List.mem_filter.mp hs).1,
          of_decide_eq_true (List.mem_filter.mp hs).2⟩
      · intro s hs hsw
        rw [rlKept]
        exact List.mem_filter.mpr ⟨hs, decide_eq_true hsw⟩
    · refine ⟨?_, ?_, ?_, ?_, ?_, ?_⟩
      · simp [wait_if_needed, hlen]
      · intro hc
        exact absurd hc hlen
      · intro _
        simp [wait_if_needed, hlen]
      · simp [wait_if_needed, hlen]
      · intro s hs
        rw [rlKept] at hs
        exact ⟨(List.mem_filter.mp hs).1,
          of_decide_eq_true (List.mem_filter.mp hs).2⟩
      · intro s hs hsw
        rw [rlKept]
        exact List.mem_filter.mpr ⟨hs, decide_eq_true hsw⟩
  · intro t0
    have e1 : (wait_if_needed 2 1 [] t0).calls = t0 :: [] := by
      norm_num [wait_if_needed, rlKept]
    have e2 : (wait_if_needed 2 1 (t0 :: []) t0).calls = t0 :: t0 :: [] := by
      norm_num [wait_if_needed, rlKept]
    rw [e1, e2]
    norm_num [wait_if_needed, rlKept]

/-- Witness for C7: the first part applied at capacity 1, window 1, empty
history, admission at time 0. -/
theorem C7_rate_limiter_witness :
    0 ≤ (wait_if_needed 1 1 [] 0).delay :=
  (C7_rate_limiter.1 1 1 [] 0 (le_refl 1) (by norm_num)).2.2.2.1

/-! ### Claim C8: progress bookkeeping of the URL loop -/

/-- The last element of `range' 1 n` is `n` when `n` is positive. -/
theorem getLast_range_one (n : Nat) (h : 1 ≤ n) :
    (List.range' 1 n).getLast? = some n := by
  obtain ⟨m, rfl⟩ : ∃ m, n = m + 1 := ⟨n - 1, by omega⟩
  rw [List.range'_concat, List.getLast?_concat]
  simp
  omega

/-- Claim C8: for a job with a non-empty URL list, the URL loop persists
exactly one progress update per URL; the persisted processed counts are
`1, 2, ..., total` (strictly increasing, ending at the total); and every
update carries elapsed time and the remaining-time estimate
`(elapsed / processed) * (total - processed)`. -/
theorem C8_progress_updates (urls : List String) (durs : List ℚ)
    (h : urls ≠ []) :
    ((progress_updates urls.length durs).length = urls.length) ∧
    ((progress_updates urls.length durs).map (fun f => f.progress) =
      List.range' 1 urls.length) ∧
    ((progress_updates urls.length durs).Chain'
      (fun a b => a.progress < b.progress)) ∧
    (((progress_updates urls.length durs).map (fun f => f.progress)).getLast? =
      some urls.length) ∧
    (∀ f ∈ progress_updates urls.length durs,
      f.state = "processing" ∧ f.total = urls.length ∧
      f.elapsed_seconds = some ((durs.take f.progress).sum) ∧
      f.estimated_remaining_seconds =
        some (((durs.take f.progress).sum / (f.progress : ℚ)) *
          ((urls.length : ℚ) - (f.progress : ℚ)))) := by
  have hmap : (progress_updates urls.length durs).map (fun f => f.progress) =
      List.range' 1 urls.length := by
    rw [progress_updates, List.map_map, List.range'_eq_map_range]
    exact List.map_congr_left (fun i _ => by
      simp [progress_status, Nat.add_comm])
  have hpos : 1 ≤ urls.length := by
    cases urls with
    | nil => exact absurd rfl h
    | cons a t => simp
  refine ⟨?_, hmap, ?_, ?_, ?_⟩
  · simp [progress_updates]
  · have hp : (List.range' 1 urls.length).Pairwise (fun a b => a < b) :=
      List.pairwise_lt_range' 1 urls.length
    have hc := hp.chain'
    rw [← hmap] at hc
    exact (List.chain'_map (fun f : StatusFile => f.progress)).mp hc
  · rw [hmap]
    exact getLast_range_one urls.length hpos
  · intro f hf
    rw [progress_updates] at hf
    simp only [List.mem_map, List.mem_range] at hf
    obtain ⟨i, _, rfl⟩ := hf
    exact ⟨rfl, rfl, rfl, rfl⟩

/-- Witness for C8: the theorem applied to a concrete one-URL job taking
two time units. -/
theorem C8_progress_updates_witness :
    (progress_updates (sampleUrl :: []).length ((2 : ℚ) :: [])).length =
      (sampleUrl :: []).length :=
  (C8_progress_updates (sampleUrl :: []) ((2 : ℚ) :: [])
    (List.cons_ne_nil sampleUrl [])).1

/-! ### Claim C9: completion statistics -/

/-- Counting the elements failing a predicate and those satisfying it
partitions the length. -/
theorem countP_not_add {α : Type} (p : α → Bool) (l : List α) :
    l.countP (fun a => !(p a)) + l.countP p = l.length := by
  induction l with
  | nil => rfl
  | cons a t ih =>
    by_cases hpa : p a = true <;> simp [List.countP_cons, hpa] <;> omega

/-- Claim C9: the terminal `completed` status for a job whose result list
covers all its URLs carries a success count and an error count; a URL is
counted as an error exactly when its status-code field resolved to one of
the sentinels `"Timeout"`, `"Error"`, `"N/A"`, and the two counts sum to
the URL total. -/
theorem C9_completed_counts (job_id : String) (results : List Record)
    (urlsTotal : Nat) (dur : ℚ) (h : results.length = urlsTotal) :
    (completed_status job_id results urlsTotal dur).state = "completed" ∧
    (completed_status job_id results urlsTotal dur).successful =
      some (results.countP (fun r => !(statusIsErrorSentinel r))) ∧
    (completed_status job_id results urlsTotal dur).errors =
      some (results.countP statusIsErrorSentinel) ∧
    results.countP (fun r => !(statusIsErrorSentinel r)) +
      results.countP statusIsErrorSentinel = urlsTotal := by
  have hsum := countP_not_add statusIsErrorSentinel results
  refine ⟨rfl, rfl, ?_, by omega⟩
  have herr : error_urls results = results.countP statusIsErrorSentinel := by
    rw [error_urls, successful_urls]
    omega
  show some (error_urls results) = some (results.countP statusIsErrorSentinel)
  exact congrArg some herr

/-- Witness for C9: the theorem applied to the five successful records of
the concrete five-URL job. -/
theorem C9_completed_counts_witness :
    (completed_status c1JobId c1Results 5 5).state = "completed" :=
  (C9_completed_counts c1JobId c1Results 5 5 rfl).1

/-! ### Claim C1: cancellation during processing is never observed -/

/-- Claim C1, settled against the code: `process_job` never reads the
status file and polls no cancellation flag at URL boundaries. On the
concrete five-URL job, with the cancellation request arriving between
URL 1 and URL 2 (after the claim write and the first progress write):
the request does flip the file to `cancelled` with progress frozen at 1,
but the very next progress write overwrites it back to `processing` with
progress 2, and the job finishes with a terminal `completed` status at
progress 5 (successful 5, errors 0) and the artifact written — not the
`cancelled` status, frozen progress and absent artifact the claim
demands. -/
theorem C1_cancellation_overwritten :
    (((c1Events.take 2 ++ JobEv.cancelRequest :: []).foldl applyEv
        ⟨none, false⟩).statusFile.map (fun f => (f.state, f.progress))) =
      some ( "cancelled", 1) ∧
    (((c1Events.take 2 ++ JobEv.cancelRequest :: (c1Events.drop 2).take 1).foldl
        applyEv ⟨none, false⟩).statusFile.map (fun f => (f.state, f.progress))) =
      some ( "processing", 2) ∧
    ((runWithCancelAfter c1Events 2).statusFile.map
        (fun f => (f.state, f.progress, f.successful, f.errors))) =
      some ( "completed", 5, some 5, some 0) ∧
    (runWithCancelAfter c1Events 2).artifact = true := by
  refine ⟨rfl, rfl, rfl, rfl⟩

/-! ### Claim C5: adapters degrade, never raise -/

/-- A `try/except` region always returns normally. -/
theorem tryExcept_ok {α : Type} (b : Except Unit α) (h : α) :
    ∃ v, tryExcept b h = .ok v := by
  cases b with
  | ok v => exact ⟨v, rfl⟩
  | error e => exact ⟨h, rfl⟩

/-- Claim C5: no source adapter ever propagates an exception (each always
returns a value); a missing credential yields the all-sentinel record
before any call; for the Majestic adapter a transport error, a non-2xx
response and a malformed payload each resolve to the sentinel; an
environment in which every sub-call raises yields the all-sentinel
record for the multi-call adapters; and one sub-call failing does not
blank the other sub-results (the failing sub-call's fields degrade to
the sentinel while the other fields keep whatever their own calls
produced). -/
theorem C5_adapters_degrade (mf : Fetch) (ae : AhrefsEnv) (de : DfsEnv)
    (url mkey akey dkey : String) :
    (∃ v, get_majestic_data mf url mkey = .ok v) ∧
    (∃ r, get_ahrefs_data ae akey = .ok r) ∧
    (∃ r, get_dataforseo_data de url dkey = .ok r) ∧
    (get_majestic_data mf url "" = .ok NA) ∧
    (get_ahrefs_data ae "" = .ok ahrefsNA) ∧
    (get_dataforseo_data de url "" = .ok dfsNA) ∧
    (get_majestic_data Fetch.exc url mkey = .ok NA) ∧
    (∀ (st : Nat) (b : Except Unit JVal), st ≠ 200 →
      get_majestic_data (Fetch.resp st b) url mkey = .ok NA) ∧
    (get_majestic_data (Fetch.resp 200 (.error ())) url mkey = .ok NA) ∧
    (get_ahrefs_data ⟨Fetch.exc, Fetch.exc, Fetch.exc⟩ akey = .ok ahrefsNA) ∧
    (get_dataforseo_data ⟨Fetch.exc, Fetch.exc⟩ url dkey = .ok dfsNA) ∧
    (akey ≠ "" →
      get_ahrefs_data ⟨Fetch.exc, ae.refdomains, ae.traffic⟩ akey =
        .ok ⟨NA, ahrefsField ae.refdomains ahrefsExtractRef,
          ahrefsField ae.traffic ahrefsExtractTraffic⟩) ∧
    (dkey ≠ "" → (splitOnChar ':' dkey.toList).length = 2 →
      validDomain (cleanDomain url) = true →
      get_dataforseo_data ⟨Fetch.exc, de.traffic⟩ url dkey =
        .ok ⟨NA, dfsTrafficField de.traffic, NA⟩) := by
  refine ⟨?_, ?_, ?_, ?_, ?_, ?_, ?_, ?_, ?_, ?_, ?_, ?_, ?_⟩
  · cases mf with
    | exc =>
      rw [get_majestic_data]
      split
      · exact ⟨NA, rfl⟩
      · exact tryExcept_ok _ _
    | resp st b =>
      rw [get_majestic_data]
      split
      · exact ⟨NA, rfl⟩
      · exact tryExcept_ok _ _
  · rw [get_ahrefs_data]
    split
    · exact ⟨ahrefsNA, rfl⟩
    · exact tryExcept_ok _ _
  · rw [get_dataforseo_data]
    split
    · exact ⟨dfsNA, rfl⟩
    · split
      · exact ⟨dfsNA, rfl⟩
      · dsimp only
        split
        · exact ⟨dfsNA, rfl⟩
        · exact ⟨_, rfl⟩
  · rfl
  · rfl
  · rfl
  · rw [get_majestic_data]
    split
    · rfl
    · rfl
  · intro st b hst
    rw [get_majestic_data]
    split
    · rfl
    · have hb : (st != 200) = true := by simpa using hst
      simp only [hb, if_true]
      rfl
  · rw [get_majestic_data]
    split
    · rfl
    · rfl
  · rw [get_ahrefs_data]
    split
    · rfl
    · rfl
  · rw [get_dataforseo_data]
    split
    · rfl
    · split
      · rfl
      · dsimp only
        split
        · rfl
        · rfl
  · intro h
    have hb : ¬ ((akey == "") = true) := by simpa using h
    rw [get_ahrefs_data, if_neg hb]
    rfl
  · intro h1 h2 h3
    have hb1 : ¬ ((dkey == "") = true) := by simpa using h1
    have hb2 : ¬ (((splitOnChar ':' dkey.toList).length != 2) = true) := by
      simpa using h2
    have hb3 : ¬ ((!(validDomain (cleanDomain url))) = true) := by
      simp [h3]
    simp only [get_dataforseo_data]
    rw [if_neg hb1, if_neg hb2, if_neg hb3]
    rfl

/-- Witness for C5: the theorem applied at a concrete environment — a
404 response for Majestic, an all-raising Ahrefs environment for the
sub-call-independence part, and an all-raising DataForSEO environment
with the valid credential `a:b` and the valid domain
`http://example.com`. -/
theorem C5_adapters_degrade_witness :
    get_majestic_data (Fetch.resp 404 (.error ())) sampleUrl sampleKey =
      .ok NA ∧
    get_ahrefs_data ⟨Fetch.exc, Fetch.exc, Fetch.exc⟩ sampleKey =
      .ok ⟨NA, ahrefsField Fetch.exc ahrefsExtractRef,
        ahrefsField Fetch.exc ahrefsExtractTraffic⟩ ∧
    get_dataforseo_data ⟨Fetch.exc, Fetch.exc⟩ sampleDomainUrl sampleCred =
      .ok ⟨NA, dfsTrafficField Fetch.exc, NA⟩ := by
  refine ⟨?_, ?_, ?_⟩
  · exact (C5_adapters_degrade (Fetch.resp 404 (.error ()))
      ⟨Fetch.exc, Fetch.exc, Fetch.exc⟩ ⟨Fetch.exc, Fetch.exc⟩ sampleUrl
      sampleKey sampleKey sampleCred).2.2.2.2.2.2.2.1 404 (.error ())
      (by decide)
  · exact (C5_adapters_degrade (Fetch.resp 404 (.error ()))
      ⟨Fetch.exc, Fetch.exc, Fetch.exc⟩ ⟨Fetch.exc, Fetch.exc⟩ sampleUrl
      sampleKey sampleKey sampleCred).2.2.2.2.2.2.2.2.2.2.2.1 (by decide)
  · exact (C5_adapters_degrade (Fetch.resp 404 (.error ()))
      ⟨Fetch.exc, Fetch.exc, Fetch.exc⟩ ⟨Fetch.exc, Fetch.exc⟩ sampleDomainUrl
      sampleKey sampleKey sampleCred).2.2.2.2.2.2.2.2.2.2.2.2 (by decide)
      (by decide) (by decide)

end IMScraper
